import Mathlib

/-
Shallow embedding of the DPS150 protocol engine (src/dps150/protocol.py).

Conventions of the embedding:
* A byte buffer or payload is a `List Nat`; the Python code treats it as a
  read-only sequence of small integers.
* Python code that can raise an exception (struct.error from
  struct.unpack_from, IndexError from out-of-range indexing) is embedded in
  the `Option` monad: `none` means the call raises.
* A 4-byte little-endian IEEE-754 float read by struct.unpack_from is
  represented by its 32-bit little-endian word (the bit pattern), since the
  map from the 4 bytes to the float value is injective and no claim inspects
  the arithmetic value of a float.
* `bytes.decode(errors=replace)` is total (never raises) and injective is not
  needed; the decoded text is represented by the byte sequence it came from.
-/

namespace DPS150

def HEADER_INPUT : Nat := 0xF0

def HEADER_OUTPUT : Nat := 0xF1

def PROTECTION_STATES : List String := ["", "OVP", "OCP", "OPP", "OTP", "LVP", "REP"]

/-- Frame dataclass from protocol.py: header, cmd, type_id, payload. -/
structure Frame where
  header : Nat
  cmd : Nat
  type_id : Nat
  payload : List Nat
deriving DecidableEq, Repr

/-- checksum from protocol.py: (type_id + len(payload) + sum(payload)) & 0xFF. -/
def checksum (type_id : Nat) (payload : List Nat) : Nat :=
  (type_id + payload.length + payload.sum) &&& 0xFF

/-- encode_frame from protocol.py:
    bytes([header, cmd, type_id, len]) + payload + bytes([checksum]). -/
def encode_frame (header cmd type_id : Nat) (payload : List Nat) : List Nat :=
  [header, cmd, type_id, payload.length] ++ payload ++ [checksum type_id payload]

/-- The scan loop of try_extract_frame. Python iterates i over
    range(0, n - 5), so the loop body runs at most n - 5 times; the first
    argument is the number of loop iterations still allowed (n - 5 - i),
    which only decreases the recursion and never cuts the loop short. -/
def scanLoop (buffer : List Nat) : Nat → Nat → Option (Frame × Nat)
  | 0, _ => none
  | fuel + 1, i =>
    if i < buffer.length - 5 then
      let header := buffer.getD i 0
      if header = HEADER_INPUT ∨ header = HEADER_OUTPUT then
        let c4 := buffer.getD (i + 3) 0
        if buffer.length ≤ i + 4 + c4 then
          none
        else
          let payload := (buffer.drop (i + 4)).take c4
          if checksum (buffer.getD (i + 2) 0) payload = buffer.getD (i + 4 + c4) 0 then
            some (⟨header, buffer.getD (i + 1) 0, buffer.getD (i + 2) 0, payload⟩, i + 5 + c4)
          else
            scanLoop buffer fuel (i + 1)
      else
        scanLoop buffer fuel (i + 1)
    else
      none

/-- try_extract_frame from protocol.py. Returns some (frame, consumed) when a
    checksum-valid frame is found, none when the buffer holds no complete
    valid frame yet (need more data, or nothing but rejected candidates). -/
def try_extract_frame (buffer : List Nat) : Option (Frame × Nat) :=
  if buffer.length < 6 then none
  else scanLoop buffer (buffer.length - 5) 0

/-- Candidate predicate: the byte at offset i is one of the two header values.
    Mirrors `header in (HEADER_INPUT, HEADER_OUTPUT)` in try_extract_frame. -/
def validHeader (buffer : List Nat) (i : Nat) : Prop :=
  buffer.getD i 0 = HEADER_INPUT ∨ buffer.getD i 0 = HEADER_OUTPUT

instance (buffer : List Nat) (i : Nat) : Decidable (validHeader buffer i) := by
  unfold validHeader; infer_instance

/-- Index of the checksum byte of the candidate frame starting at offset i:
    `end = i + 4 + c4` in try_extract_frame, where c4 is the declared length. -/
def declaredEnd (buffer : List Nat) (i : Nat) : Nat :=
  i + 4 + buffer.getD (i + 3) 0

/-- Payload of the candidate frame starting at offset i, as sliced by
    try_extract_frame: buffer[i+4 : i+4+c4]. -/
def candPayload (buffer : List Nat) (i : Nat) : List Nat :=
  (buffer.drop (i + 4)).take (buffer.getD (i + 3) 0)

/-- The checksum test of try_extract_frame for the candidate at offset i. -/
def candChecksumOk (buffer : List Nat) (i : Nat) : Prop :=
  checksum (buffer.getD (i + 2) 0) (candPayload buffer i) = buffer.getD (declaredEnd buffer i) 0

instance (buffer : List Nat) (i : Nat) : Decidable (candChecksumOk buffer i) := by
  unfold candChecksumOk; infer_instance

/-- Heterogeneous field value of an update record (the Python dict values). -/
inductive Value where
  | f32bits : Nat → Value
  | byte : Nat → Value
  | bool : Bool → Value
  | str : String → Value
  | utf8 : List Nat → Value
  | raw : List Nat → Value
deriving DecidableEq, Repr

/-- struct.unpack_from with format <f at the given offset: raises
    (struct.error) unless offset + 4 <= len(payload); otherwise yields the
    float whose 32-bit little-endian word is formed from the 4 bytes. -/
def f32 (payload : List Nat) (off : Nat) : Option Nat :=
  if off + 4 ≤ payload.length then
    some (payload.getD off 0 + payload.getD (off + 1) 0 * 256 +
      payload.getD (off + 2) 0 * 65536 + payload.getD (off + 3) 0 * 16777216)
  else none

/-- Python indexing payload[i]: raises IndexError unless i < len(payload). -/
def byteAt (payload : List Nat) (i : Nat) : Option Nat :=
  if i < payload.length then some (payload.getD i 0) else none

/-- Lookup PROTECTION_STATES[idx] if idx < len(PROTECTION_STATES) else str(idx),
    as in the type 220 branch and the ALL branch of parse_payload. -/
def protectionLabel (idx : Nat) : String :=
  if idx < PROTECTION_STATES.length then PROTECTION_STATES.getD idx "" else toString idx

/-- Read a block of 4-byte floats at the given (key, offset) pairs, in order,
    failing as soon as one read fails. The Python ALL branch evaluates the
    same unpack_from calls in the same order before storing any of them; the
    observable result (the record on success, an exception on failure) is the
    same. -/
def readFloats (payload : List Nat) : List (String × Nat) → Option (List (String × Value))
  | [] => some []
  | (key, off) :: rest => do
    let v ← f32 payload off
    let tail ← readFloats payload rest
    some ((key, Value.f32bits v) :: tail)

/-- The 24 core floats of the ALL block, keys and byte offsets exactly as in
    the out.update call of the type 255 branch of parse_payload. -/
def allCoreTable : List (String × Nat) :=
  [("inputVoltage", 0), ("setVoltage", 4), ("setCurrent", 8),
   ("outputVoltage", 12), ("outputCurrent", 16), ("outputPower", 20),
   ("temperature", 24),
   ("group1setVoltage", 28), ("group1setCurrent", 32),
   ("group2setVoltage", 36), ("group2setCurrent", 40),
   ("group3setVoltage", 44), ("group3setCurrent", 48),
   ("group4setVoltage", 52), ("group4setCurrent", 56),
   ("group5setVoltage", 60), ("group5setCurrent", 64),
   ("group6setVoltage", 68), ("group6setCurrent", 72),
   ("overVoltageProtection", 76), ("overCurrentProtection", 80),
   ("overPowerProtection", 84), ("overTemperatureProtection", 88),
   ("lowVoltageProtection", 92)]

/-- The bytes at fixed positions section of the ALL branch:
    guarded by len(payload) > 98, reads payload[96], payload[97], payload[98]. -/
def allBytesPart (payload : List Nat) : Option (List (String × Value)) :=
  if 98 < payload.length then do
    let b96 ← byteAt payload 96
    let b97 ← byteAt payload 97
    let b98 ← byteAt payload 98
    some [("brightness", Value.byte b96), ("volume", Value.byte b97),
      ("meteringClosed", Value.bool (b98 == 0))]
  else some []

/-- The capacity, energy, closed, protection, mode section of the ALL branch:
    guarded by len(payload) >= 109, reads floats at 99 and 103 and the bytes
    payload[107], payload[108], payload[109]. -/
def allStatePart (payload : List Nat) : Option (List (String × Value)) :=
  if 109 ≤ payload.length then do
    let oc ← f32 payload 99
    let oe ← f32 payload 103
    let b107 ← byteAt payload 107
    let prot ← byteAt payload 108
    let b109 ← byteAt payload 109
    some [("outputCapacity", Value.f32bits oc), ("outputEnergy", Value.f32bits oe),
      ("outputClosed", Value.bool (b107 == 1)),
      ("protectionState", Value.str (protectionLabel prot)),
      ("mode", Value.str (if b109 == 0 then "CC" else "CV"))]
  else some []

/-- The upper limit section of the ALL branch: guarded by
    len(payload) >= 119, reads floats at 111 and 115. -/
def allLimitsPart (payload : List Nat) : Option (List (String × Value)) :=
  if 119 ≤ payload.length then do
    let uv ← f32 payload 111
    let uc ← f32 payload 115
    some [("upperLimitVoltage", Value.f32bits uv), ("upperLimitCurrent", Value.f32bits uc)]
  else some []

/-- parse_payload from protocol.py. The update record is the list of
    (key, value) pairs in insertion order; `none` means the Python call
    raises an exception. -/
def parse_payload (type_id : Nat) (payload : List Nat) : Option (List (String × Value)) :=
  if type_id = 192 then do
    let v ← f32 payload 0
    some [("inputVoltage", Value.f32bits v)]
  else if type_id = 195 then do
    let v ← f32 payload 0
    let c ← f32 payload 4
    let p ← f32 payload 8
    some [("outputVoltage", Value.f32bits v), ("outputCurrent", Value.f32bits c),
      ("outputPower", Value.f32bits p)]
  else if type_id = 196 then do
    let v ← f32 payload 0
    some [("temperature", Value.f32bits v)]
  else if type_id = 217 then do
    let v ← f32 payload 0
    some [("outputCapacity", Value.f32bits v)]
  else if type_id = 218 then do
    let v ← f32 payload 0
    some [("outputEnergy", Value.f32bits v)]
  else if type_id = 219 then do
    let b ← byteAt payload 0
    some [("outputClosed", Value.bool (b == 1))]
  else if type_id = 220 then do
    let idx ← byteAt payload 0
    some [("protectionState", Value.str (protectionLabel idx))]
  else if type_id = 221 then do
    let m ← byteAt payload 0
    some [("mode", Value.str (if m == 0 then "CC" else "CV"))]
  else if type_id = 222 then
    some [("modelName", Value.utf8 payload)]
  else if type_id = 223 then
    some [("hardwareVersion", Value.utf8 payload)]
  else if type_id = 224 then
    some [("firmwareVersion", Value.utf8 payload)]
  else if type_id = 226 then do
    let v ← f32 payload 0
    some [("upperLimitVoltage", Value.f32bits v)]
  else if type_id = 227 then do
    let v ← f32 payload 0
    some [("upperLimitCurrent", Value.f32bits v)]
  else if type_id = 255 then
    if payload.length < 95 then
      some [("rawAll", Value.raw payload)]
    else do
      let core ← readFloats payload allCoreTable
      let part1 ← allBytesPart payload
      let part2 ← allStatePart payload
      let part3 ← allLimitsPart payload
      some (core ++ part1 ++ part2 ++ part3)
  else
    some []

/-
State-threaded embedding of try_extract_frame, used to express that the
function never mutates the buffer it is given. Every operation the Python
body performs on the bytearray (len, indexing, slicing) is modelled as an
explicit operation taking the buffer state and returning the read value
together with the buffer state the operation leaves behind. The reader loop
in device.py is the only code that shortens the buffer, with
del rx_buf[:consumed], modelled by reader_consume.
-/

/-- len(buffer): reads the length, leaves the bytearray as is. -/
def bufLen (buf : List Nat) : Nat × List Nat := (buf.length, buf)

/-- buffer[i]: reads one byte, leaves the bytearray as is. -/
def bufGet (buf : List Nat) (i : Nat) : Nat × List Nat := (buf.getD i 0, buf)

/-- bytes(buffer[a : b]): copies a slice, leaves the bytearray as is. Python
    slicing clamps both bounds to the length, as drop and take do. -/
def bufSlice (buf : List Nat) (a b : Nat) : List Nat × List Nat :=
  ((buf.drop a).take (b - a), buf)

/-- The for loop of try_extract_frame with the buffer state threaded through
    every operation; the list argument carries the offsets produced by
    range(0, n - 5) that are still to be visited. -/
def scanLoopImp (n : Nat) : List Nat → List Nat → Option (Frame × Nat) × List Nat
  | [], buf => (none, buf)
  | i :: rest, buf =>
    let r0 := bufGet buf i
    let header := r0.1
    let buf := r0.2
    if header = HEADER_INPUT ∨ header = HEADER_OUTPUT then
      let r1 := bufGet buf (i + 1)
      let cmd := r1.1
      let buf := r1.2
      let r2 := bufGet buf (i + 2)
      let type_id := r2.1
      let buf := r2.2
      let r3 := bufGet buf (i + 3)
      let c4 := r3.1
      let buf := r3.2
      if n ≤ i + 4 + c4 then (none, buf)
      else
        let r4 := bufSlice buf (i + 4) (i + 4 + c4)
        let payload := r4.1
        let buf := r4.2
        let r5 := bufGet buf (i + 4 + c4)
        let c6 := r5.1
        let buf := r5.2
        if checksum type_id payload = c6 then
          (some (⟨header, cmd, type_id, payload⟩, i + 5 + c4), buf)
        else scanLoopImp n rest buf
    else scanLoopImp n rest buf

/-- try_extract_frame with the buffer state made explicit: returns the result
    together with the buffer as the call leaves it. -/
def try_extract_frame_imp (buf : List Nat) : Option (Frame × Nat) × List Nat :=
  let r := bufLen buf
  let n := r.1
  let buf := r.2
  if n < 6 then (none, buf)
  else scanLoopImp n (List.range (n - 5)) buf

/-- del rx_buf[:consumed] in the reader loop of device.py: the caller, not
    try_extract_frame, removes the consumed bytes. -/
def reader_consume (buf : List Nat) (consumed : Nat) : List Nat := buf.drop consumed

/-
Theorems.
-/

theorem checksum_eq_mod (type_id : Nat) (payload : List Nat) :
    checksum type_id payload = (type_id + payload.length + payload.sum) % 256 := by
  show (type_id + payload.length + payload.sum) &&& (2 ^ 8 - 1) = _
  rw [Nat.and_pow_two_sub_one_eq_mod]

theorem encode_frame_getLast (header cmd type_id : Nat) (payload : List Nat) :
    (encode_frame header cmd type_id payload).getLast? = some (checksum type_id payload) := by
  unfold encode_frame
  exact List.getLast?_concat _

/-- C6: for every type_id in 0-255 and payload of at most 255 bytes, checksum
    returns (type_id + length + sum of payload bytes) mod 256, and
    encode_frame places this value in the final byte of its output. -/
theorem checksum_spec (header cmd type_id : Nat) (payload : List Nat)
    (ht : type_id ≤ 255) (hp : payload.length ≤ 255) :
    checksum type_id payload = (type_id + payload.length + payload.sum) % 256 ∧
    (encode_frame header cmd type_id payload).getLast? = some (checksum type_id payload) :=
  ⟨checksum_eq_mod type_id payload, encode_frame_getLast header cmd type_id payload⟩

/-- Witness for checksum_spec at type_id 0xC1 and payload [1, 2, 3, 255]. -/
theorem checksum_spec_witness :
    checksum 0xC1 [1, 2, 3, 255] =
      (0xC1 + ([1, 2, 3, 255] : List Nat).length + ([1, 2, 3, 255] : List Nat).sum) % 256 ∧
    (encode_frame 0xF1 0xA1 0xC1 [1, 2, 3, 255]).getLast? = some (checksum 0xC1 [1, 2, 3, 255]) :=
  checksum_spec 0xF1 0xA1 0xC1 [1, 2, 3, 255] (by decide) (by decide)

/-- C7: every type_id outside the register identifiers handled by the decoder
    yields an empty record, without an error. -/
theorem parse_payload_unknown (type_id : Nat) (payload : List Nat)
    (h : type_id ∉
      ([192, 195, 196, 217, 218, 219, 220, 221, 222, 223, 224, 226, 227, 255] : List Nat)) :
    parse_payload type_id payload = some [] := by
  simp only [List.mem_cons, List.not_mem_nil, or_false, not_or] at h
  obtain ⟨h1, h2, h3, h4, h5, h6, h7, h8, h9, h10, h11, h12, h13, h14⟩ := h
  unfold parse_payload
  rw [if_neg h1, if_neg h2, if_neg h3, if_neg h4, if_neg h5, if_neg h6, if_neg h7,
    if_neg h8, if_neg h9, if_neg h10, if_neg h11, if_neg h12, if_neg h13, if_neg h14]

/-- Witness for parse_payload_unknown at type_id 193 (a writable register the
    decoder does not handle). -/
theorem parse_payload_unknown_witness : parse_payload 193 [1, 2, 3] = some [] :=
  parse_payload_unknown 193 [1, 2, 3] (by decide)

/-- C1: the guard of the ALL branch lets a 95 byte payload through, but the last
    core float sits at offset 92 and needs 96 bytes, so a 95 byte ALL payload
    raises struct.error instead of decoding the core block; 94 bytes fall back
    to rawAll and 96 bytes decode the core block. -/
theorem parse_all_core_guard_gap :
    parse_payload 255 (List.replicate 94 0) =
      some [("rawAll", Value.raw (List.replicate 94 0))] ∧
    parse_payload 255 (List.replicate 95 0) = none ∧
    (parse_payload 255 (List.replicate 96 0)).isSome = true := by
  refine ⟨rfl, rfl, rfl⟩

/-- C2: the capacity/energy/closed/protection/mode section is guarded by
    len(payload) >= 109 but reads payload[109], which needs 110 bytes, so a
    109 byte ALL payload raises IndexError; 108 and 110 byte payloads decode
    without an error. -/
theorem parse_all_state_guard_gap :
    (parse_payload 255 (List.replicate 108 0)).isSome = true ∧
    parse_payload 255 (List.replicate 109 0) = none ∧
    (parse_payload 255 (List.replicate 110 0)).isSome = true := by
  refine ⟨rfl, rfl, rfl⟩

/-
Scanner lemmas: one lemma per way an iteration of the loop in
try_extract_frame can go, then range versions by induction.
-/

theorem scanLoop_oob (buffer : List Nat) (fuel i : Nat) (h : buffer.length - 5 ≤ i) :
    scanLoop buffer fuel i = none := by
  cases fuel with
  | zero => rfl
  | succ fuel =>
    simp only [scanLoop]
    rw [if_neg (by omega)]

theorem scanLoop_stop (buffer : List Nat) (fuel i : Nat) (hvh : validHeader buffer i)
    (hend : buffer.length ≤ declaredEnd buffer i) : scanLoop buffer fuel i = none := by
  have hvh' : buffer.getD i 0 = HEADER_INPUT ∨ buffer.getD i 0 = HEADER_OUTPUT := hvh
  have hend' : buffer.length ≤ i + 4 + buffer.getD (i + 3) 0 := hend
  cases fuel with
  | zero => rfl
  | succ fuel =>
    simp only [scanLoop]
    by_cases hr : i < buffer.length - 5
    · rw [if_pos hr, if_pos hvh', if_pos hend']
    · rw [if_neg hr]

theorem scanLoop_skip (buffer : List Nat) (fuel i : Nat)
    (h : ¬ validHeader buffer i ∨
      (declaredEnd buffer i < buffer.length ∧ ¬ candChecksumOk buffer i)) :
    scanLoop buffer (fuel + 1) i = scanLoop buffer fuel (i + 1) := by
  by_cases hr : i < buffer.length - 5
  · simp only [scanLoop]
    rw [if_pos hr]
    by_cases hv : buffer.getD i 0 = HEADER_INPUT ∨ buffer.getD i 0 = HEADER_OUTPUT
    · rcases h with hnv | ⟨hend, hck⟩
      · exact absurd hv hnv
      · have hend' : ¬ buffer.length ≤ i + 4 + buffer.getD (i + 3) 0 := by
          have : i + 4 + buffer.getD (i + 3) 0 < buffer.length := hend
          omega
        have hck' : ¬ checksum (buffer.getD (i + 2) 0)
            ((buffer.drop (i + 4)).take (buffer.getD (i + 3) 0)) =
            buffer.getD (i + 4 + buffer.getD (i + 3) 0) 0 := hck
        rw [if_pos hv, if_neg hend', if_neg hck']
    · rw [if_neg hv]
  · rw [scanLoop_oob buffer _ i (by omega), scanLoop_oob buffer fuel (i + 1) (by omega)]

theorem scanLoop_accept (buffer : List Nat) (fuel i : Nat)
    (hr : i < buffer.length - 5) (hvh : validHeader buffer i)
    (hend : declaredEnd buffer i < buffer.length) (hck : candChecksumOk buffer i) :
    scanLoop buffer (fuel + 1) i =
      some (⟨buffer.getD i 0, buffer.getD (i + 1) 0, buffer.getD (i + 2) 0,
        candPayload buffer i⟩, i + 5 + buffer.getD (i + 3) 0) := by
  have hvh' : buffer.getD i 0 = HEADER_INPUT ∨ buffer.getD i 0 = HEADER_OUTPUT := hvh
  have hend' : ¬ buffer.length ≤ i + 4 + buffer.getD (i + 3) 0 := by
    have : i + 4 + buffer.getD (i + 3) 0 < buffer.length := hend
    omega
  have hck' : checksum (buffer.getD (i + 2) 0)
      ((buffer.drop (i + 4)).take (buffer.getD (i + 3) 0)) =
      buffer.getD (i + 4 + buffer.getD (i + 3) 0) 0 := hck
  simp only [scanLoop]
  rw [if_pos hr, if_pos hvh', if_neg hend', if_pos hck']
  rfl

theorem scanLoop_skip_range (buffer : List Nat) :
    ∀ (d fuel i : Nat),
    (∀ j, i ≤ j → j < i + d →
      ¬ validHeader buffer j ∨
      (declaredEnd buffer j < buffer.length ∧ ¬ candChecksumOk buffer j)) →
    scanLoop buffer (fuel + d) i = scanLoop buffer fuel (i + d) := by
  intro d
  induction d with
  | zero => intro fuel i _; rfl
  | succ d ih =>
    intro fuel i h
    have h0 := h i (Nat.le_refl i) (by omega)
    have e1 : fuel + (d + 1) = (fuel + d) + 1 := by omega
    rw [e1, scanLoop_skip buffer (fuel + d) i h0]
    have e2 := ih fuel (i + 1) (fun j hj1 hj2 => h j (by omega) (by omega))
    rw [e2]
    congr 1
    omega

theorem scanLoop_none_of_incomplete (buffer : List Nat) :
    ∀ (d i0 i fuel : Nat), i0 + d = i →
    validHeader buffer i → buffer.length ≤ declaredEnd buffer i →
    (∀ j, i0 ≤ j → j < i → validHeader buffer j →
      declaredEnd buffer j < buffer.length → ¬ candChecksumOk buffer j) →
    scanLoop buffer fuel i0 = none := by
  intro d
  induction d with
  | zero =>
    intro i0 i fuel h0 hvh hend _
    have : i0 = i := by omega
    subst this
    exact scanLoop_stop buffer fuel i0 hvh hend
  | succ d ih =>
    intro i0 i fuel h0 hvh hend hj
    cases fuel with
    | zero => rfl
    | succ fuel =>
      by_cases hv0 : validHeader buffer i0
      · by_cases he0 : declaredEnd buffer i0 < buffer.length
        · have hck := hj i0 (Nat.le_refl i0) (by omega) hv0 he0
          rw [scanLoop_skip buffer fuel i0 (Or.inr ⟨he0, hck⟩)]
          exact ih (i0 + 1) i fuel (by omega) hvh hend
            (fun j a b c d2 => hj j (by omega) b c d2)
        · exact scanLoop_stop buffer (fuel + 1) i0 hv0 (by omega)
      · rw [scanLoop_skip buffer fuel i0 (Or.inl hv0)]
        exact ih (i0 + 1) i fuel (by omega) hvh hend
          (fun j a b c d2 => hj j (by omega) b c d2)

theorem scanLoop_sound (buffer : List Nat) :
    ∀ (fuel i0 : Nat) (f : Frame) (c : Nat), scanLoop buffer fuel i0 = some (f, c) →
    ∃ i, i0 ≤ i ∧ i < buffer.length - 5 ∧ validHeader buffer i ∧
      declaredEnd buffer i < buffer.length ∧ candChecksumOk buffer i ∧
      f = ⟨buffer.getD i 0, buffer.getD (i + 1) 0, buffer.getD (i + 2) 0,
        candPayload buffer i⟩ ∧
      c = i + 5 + buffer.getD (i + 3) 0 := by
  intro fuel
  induction fuel with
  | zero => intro i0 f c h; exact absurd h (by simp [scanLoop])
  | succ fuel ih =>
    intro i0 f c h
    simp only [scanLoop] at h
    by_cases hr : i0 < buffer.length - 5
    · rw [if_pos hr] at h
      by_cases hv : buffer.getD i0 0 = HEADER_INPUT ∨ buffer.getD i0 0 = HEADER_OUTPUT
      · rw [if_pos hv] at h
        by_cases he : buffer.length ≤ i0 + 4 + buffer.getD (i0 + 3) 0
        · rw [if_pos he] at h
          exact absurd h (by simp)
        · rw [if_neg he] at h
          by_cases hc : checksum (buffer.getD (i0 + 2) 0)
              ((buffer.drop (i0 + 4)).take (buffer.getD (i0 + 3) 0)) =
              buffer.getD (i0 + 4 + buffer.getD (i0 + 3) 0) 0
          · rw [if_pos hc] at h
            have hfc : f = ⟨buffer.getD i0 0, buffer.getD (i0 + 1) 0, buffer.getD (i0 + 2) 0,
                (buffer.drop (i0 + 4)).take (buffer.getD (i0 + 3) 0)⟩ ∧
                c = i0 + 5 + buffer.getD (i0 + 3) 0 := by
              have := h
              injection this with h1
              injection h1 with h2 h3
              exact ⟨h2.symm, h3.symm⟩
            have hde : declaredEnd buffer i0 = i0 + 4 + buffer.getD (i0 + 3) 0 := rfl
            exact ⟨i0, Nat.le_refl i0, hr, hv, by omega, hc, hfc.1, hfc.2⟩
          · rw [if_neg hc] at h
            obtain ⟨i, hi, rest⟩ := ih (i0 + 1) f c h
            exact ⟨i, by omega, rest⟩
      · rw [if_neg hv] at h
        obtain ⟨i, hi, rest⟩ := ih (i0 + 1) f c h
        exact ⟨i, by omega, rest⟩
    · rw [if_neg hr] at h
      exact absurd h (by simp)

/-
List index bookkeeping lemmas.
-/

theorem getD_append_add (g X : List Nat) (k : Nat) :
    (g ++ X).getD (g.length + k) 0 = X.getD k 0 := by
  rw [List.getD_append_right g X 0 (g.length + k) (by omega)]
  congr 1
  omega

theorem drop_append_add (g X : List Nat) (k : Nat) :
    (g ++ X).drop (g.length + k) = X.drop k := by
  rw [← List.drop_drop, List.drop_left]

theorem encode_frame_length (header cmd type_id : Nat) (payload : List Nat) :
    (encode_frame header cmd type_id payload).length = payload.length + 5 := by
  simp [encode_frame]

theorem encode_frame_getD_cs (header cmd type_id : Nat) (payload : List Nat) :
    (encode_frame header cmd type_id payload).getD (4 + payload.length) 0 =
      checksum type_id payload := by
  have h := getD_append_add [header, cmd, type_id, payload.length]
    (payload ++ [checksum type_id payload]) payload.length
  rw [show ([header, cmd, type_id, payload.length] : List Nat).length = 4 from rfl] at h
  calc (encode_frame header cmd type_id payload).getD (4 + payload.length) 0
      = ([header, cmd, type_id, payload.length] ++
          (payload ++ [checksum type_id payload])).getD (4 + payload.length) 0 := by
        rw [encode_frame, List.append_assoc]
    _ = (payload ++ [checksum type_id payload]).getD payload.length 0 := h
    _ = [checksum type_id payload].getD (payload.length - payload.length) 0 :=
        List.getD_append_right payload _ 0 payload.length (Nat.le_refl _)
    _ = checksum type_id payload := by rw [Nat.sub_self]; rfl

/-- The scan accepts the frame encode_frame header cmd type_id payload at the
    offset where it starts inside a buffer, provided the payload is nonempty
    (a 5 byte frame at the tail of the buffer is out of reach of the loop). -/
theorem scanLoop_accept_encode (g : List Nat) (header cmd type_id : Nat) (payload : List Nat)
    (fuel : Nat) (hh : header = HEADER_INPUT ∨ header = HEADER_OUTPUT)
    (hlen1 : 1 ≤ payload.length) :
    scanLoop (g ++ encode_frame header cmd type_id payload) (fuel + 1) g.length =
      some (⟨header, cmd, type_id, payload⟩, g.length + 5 + payload.length) := by
  have hBlen : (g ++ encode_frame header cmd type_id payload).length =
      g.length + (payload.length + 5) := by
    rw [List.length_append, encode_frame_length]
  have hg0 : (g ++ encode_frame header cmd type_id payload).getD g.length 0 = header := by
    have h := getD_append_add g (encode_frame header cmd type_id payload) 0
    rw [Nat.add_zero] at h
    rw [h]
    rfl
  have hg1 : (g ++ encode_frame header cmd type_id payload).getD (g.length + 1) 0 = cmd := by
    rw [getD_append_add]
    rfl
  have hg2 : (g ++ encode_frame header cmd type_id payload).getD (g.length + 2) 0 = type_id := by
    rw [getD_append_add]
    rfl
  have hg3 : (g ++ encode_frame header cmd type_id payload).getD (g.length + 3) 0 =
      payload.length := by
    rw [getD_append_add]
    rfl
  have hvh : validHeader (g ++ encode_frame header cmd type_id payload) g.length := by
    unfold validHeader
    rw [hg0]
    exact hh
  have hend : declaredEnd (g ++ encode_frame header cmd type_id payload) g.length <
      (g ++ encode_frame header cmd type_id payload).length := by
    show g.length + 4 + (g ++ encode_frame header cmd type_id payload).getD (g.length + 3) 0 <
      (g ++ encode_frame header cmd type_id payload).length
    rw [hg3, hBlen]
    omega
  have hpay : candPayload (g ++ encode_frame header cmd type_id payload) g.length = payload := by
    show ((g ++ encode_frame header cmd type_id payload).drop (g.length + 4)).take
      ((g ++ encode_frame header cmd type_id payload).getD (g.length + 3) 0) = payload
    rw [hg3, drop_append_add]
    show (payload ++ [checksum type_id payload]).take payload.length = payload
    exact List.take_left' rfl
  have hckv : (g ++ encode_frame header cmd type_id payload).getD
      (declaredEnd (g ++ encode_frame header cmd type_id payload) g.length) 0 =
      checksum type_id payload := by
    show (g ++ encode_frame header cmd type_id payload).getD
      (g.length + 4 + (g ++ encode_frame header cmd type_id payload).getD (g.length + 3) 0) 0 = _
    rw [hg3]
    have e : g.length + 4 + payload.length = g.length + (4 + payload.length) := by omega
    rw [e, getD_append_add, encode_frame_getD_cs]
  have hck : candChecksumOk (g ++ encode_frame header cmd type_id payload) g.length := by
    unfold candChecksumOk
    rw [hpay, hckv, hg2]
  have hr : g.length < (g ++ encode_frame header cmd type_id payload).length - 5 := by
    rw [hBlen]
    omega
  rw [scanLoop_accept (g ++ encode_frame header cmd type_id payload) fuel g.length hr hvh hend hck]
  rw [hg0, hg1, hg2, hg3, hpay]

/-- C3, amended: a frame with a nonempty payload of at most 255 bytes round
    trips through encode_frame and try_extract_frame, with consumed equal to
    the frame length 5 + payload length. An empty payload gives a 5 byte
    frame, below the 6 byte minimum of the scanner, and is never returned. -/
theorem encode_decode_roundtrip (header cmd type_id : Nat) (payload : List Nat)
    (hh : header = HEADER_INPUT ∨ header = HEADER_OUTPUT)
    (hcmd : cmd ≤ 255) (ht : type_id ≤ 255)
    (hlen1 : 1 ≤ payload.length) (hlen : payload.length ≤ 255)
    (hbytes : ∀ b ∈ payload, b ≤ 255) :
    try_extract_frame (encode_frame header cmd type_id payload) =
      some (⟨header, cmd, type_id, payload⟩, 5 + payload.length) := by
  have key := scanLoop_accept_encode [] header cmd type_id payload (payload.length - 1) hh hlen1
  rw [List.nil_append] at key
  unfold try_extract_frame
  rw [if_neg (by rw [encode_frame_length]; omega)]
  have e : (encode_frame header cmd type_id payload).length - 5 = (payload.length - 1) + 1 := by
    rw [encode_frame_length]
    omega
  rw [e]
  simpa using key

/-- Counterexample to C3 as stated: with the empty payload the encoded frame
    is 5 bytes long and the scanner returns none, not the frame. -/
theorem encode_decode_empty_payload :
    try_extract_frame (encode_frame 0xF0 0xA1 0 []) = none := by decide

/-- Witness for encode_decode_roundtrip at the frame from the repository
    tests: header 0xF0, cmd 0xA1, type_id 0x55, payload [0x10, 0x20]. -/
theorem encode_decode_roundtrip_witness :
    try_extract_frame (encode_frame 0xF0 0xA1 0x55 [0x10, 0x20]) =
      some (⟨0xF0, 0xA1, 0x55, [0x10, 0x20]⟩, 7) :=
  encode_decode_roundtrip 0xF0 0xA1 0x55 [0x10, 0x20] (by decide) (by decide) (by decide)
    (by decide) (by decide) (by decide)

/-- C4, amended: if the candidate at offset i has a valid header byte and its
    declared payload plus checksum byte extend past the end of the buffer,
    and no offset before i holds a complete candidate with a matching
    checksum, then try_extract_frame returns none (need more data), even when
    a complete checksum-valid frame starts after i. -/
theorem scanner_stops_at_incomplete (buffer : List Nat) (i : Nat)
    (hvh : validHeader buffer i)
    (hlen : i + 3 < buffer.length)
    (hinc : buffer.length ≤ declaredEnd buffer i)
    (hprev : ∀ j, j < i → validHeader buffer j →
      declaredEnd buffer j < buffer.length → ¬ candChecksumOk buffer j) :
    try_extract_frame buffer = none := by
  unfold try_extract_frame
  by_cases h6 : buffer.length < 6
  · rw [if_pos h6]
  · rw [if_neg h6]
    exact scanLoop_none_of_incomplete buffer i 0 i (buffer.length - 5) (by omega) hvh hinc
      (fun j _ hj hv he => hprev j hj hv he)

/-- Counterexample to C4 as stated: a buffer with a complete valid frame at
    offset 0 and an incomplete candidate at offset 6 yields the frame, not
    the need-more-data result the claim demands for every such buffer. -/
theorem scanner_incomplete_claim_false :
    validHeader (encode_frame 0xF0 0xA1 0 [0] ++ [0xF0, 0xFF, 0xFF, 0xFF]) 6 ∧
    (encode_frame 0xF0 0xA1 0 [0] ++ [0xF0, 0xFF, 0xFF, 0xFF]).length ≤
      declaredEnd (encode_frame 0xF0 0xA1 0 [0] ++ [0xF0, 0xFF, 0xFF, 0xFF]) 6 ∧
    try_extract_frame (encode_frame 0xF0 0xA1 0 [0] ++ [0xF0, 0xFF, 0xFF, 0xFF]) =
      some (⟨0xF0, 0xA1, 0, [0]⟩, 6) := by
  refine ⟨by decide, by decide, by decide⟩

/-- Witness for scanner_stops_at_incomplete: the incomplete candidate at
    offset 0 declares 200 payload bytes, and the scan returns none even
    though a complete checksum-valid frame starts at offset 4. -/
theorem scanner_stops_at_incomplete_witness :
    validHeader ([0xF0, 0, 0, 200] ++ encode_frame 0xF0 0xA1 1 [0]) 0 ∧
    try_extract_frame ([0xF0, 0, 0, 200] ++ encode_frame 0xF0 0xA1 1 [0]) = none :=
  ⟨by decide, scanner_stops_at_incomplete ([0xF0, 0, 0, 200] ++ encode_frame 0xF0 0xA1 1 [0]) 0
    (by decide) (by decide) (by decide)
    (fun j hj _ _ => absurd hj (Nat.not_lt_zero j))⟩

/-- C5, amended: a buffer of garbage followed by a complete checksum-valid
    frame with a nonempty payload yields that frame in one call, with
    consumed covering the garbage and the frame, provided every offset inside
    the garbage either lacks a valid header byte or is a complete candidate
    whose checksum test fails (a garbage offset with a valid header whose
    declared length runs past the buffer end makes the scan stop instead). -/
theorem scanner_noise_tolerance (g : List Nat) (header cmd type_id : Nat) (payload : List Nat)
    (hh : header = HEADER_INPUT ∨ header = HEADER_OUTPUT)
    (hlen1 : 1 ≤ payload.length) (hlen : payload.length ≤ 255)
    (hg : ∀ j, j < g.length →
      ¬ validHeader (g ++ encode_frame header cmd type_id payload) j ∨
      (declaredEnd (g ++ encode_frame header cmd type_id payload) j <
          (g ++ encode_frame header cmd type_id payload).length ∧
        ¬ candChecksumOk (g ++ encode_frame header cmd type_id payload) j)) :
    try_extract_frame (g ++ encode_frame header cmd type_id payload) =
      some (⟨header, cmd, type_id, payload⟩, g.length + 5 + payload.length) := by
  have hBlen : (g ++ encode_frame header cmd type_id payload).length =
      g.length + (payload.length + 5) := by
    rw [List.length_append, encode_frame_length]
  unfold try_extract_frame
  rw [if_neg (by rw [hBlen]; omega)]
  have hsplit : (g ++ encode_frame header cmd type_id payload).length - 5 =
      payload.length + g.length := by
    rw [hBlen]
    omega
  rw [hsplit]
  rw [scanLoop_skip_range (g ++ encode_frame header cmd type_id payload) g.length
    payload.length 0 (fun j _ hj2 => hg j (by omega))]
  rw [Nat.zero_add]
  have e : payload.length = (payload.length - 1) + 1 := by omega
  nth_rewrite 1 [e]
  rw [scanLoop_accept_encode g header cmd type_id payload (payload.length - 1) hh hlen1]

/-- Counterexample to C5 as stated: four garbage bytes starting with a valid
    header byte and a large declared length hide the complete checksum-valid
    frame that follows; the scan returns none instead of the frame. -/
theorem scanner_noise_claim_false :
    try_extract_frame ([0xF0, 0, 0, 200] ++ encode_frame 0xF0 0xA1 2 [7]) = none := by decide

/-- Witness for scanner_noise_tolerance at the resync scenario from the
    repository tests: a copy of the frame with a corrupted checksum byte,
    followed by the valid frame. -/
theorem scanner_noise_tolerance_witness :
    try_extract_frame ([0xF0, 0xA1, 0x55, 2, 0x10, 0x20, 0x78] ++
        encode_frame 0xF0 0xA1 0x55 [0x10, 0x20]) =
      some (⟨0xF0, 0xA1, 0x55, [0x10, 0x20]⟩, 14) :=
  scanner_noise_tolerance [0xF0, 0xA1, 0x55, 2, 0x10, 0x20, 0x78] 0xF0 0xA1 0x55 [0x10, 0x20]
    (by decide) (by decide) (by decide) (by decide)

/-
Soundness of every frame the scanner returns (C8).
-/

theorem getD_drop (l : List Nat) (i j : Nat) : (l.drop i).getD j 0 = l.getD (i + j) 0 := by
  simp [List.getD_eq_getElem?_getD, List.getElem?_drop]

theorem take_four (t : List Nat) (h : 4 ≤ t.length) :
    t.take 4 = [t.getD 0 0, t.getD 1 0, t.getD 2 0, t.getD 3 0] := by
  rcases t with _ | ⟨a, _ | ⟨b, _ | ⟨c, _ | ⟨d, rest⟩⟩⟩⟩
  · simp at h
  · simp at h
  · simp at h
  · simp at h
  · rfl

theorem take_succ_getD (t : List Nat) (k : Nat) (h : k < t.length) :
    t.take (k + 1) = t.take k ++ [t.getD k 0] := by
  have hk : t[k]? = some (t.getD k 0) := by
    rw [List.getElem?_eq_getElem h]
    simp [List.getD_eq_getElem?_getD, List.getElem?_eq_getElem h]
  rw [List.take_succ, hk]
  rfl

theorem candPayload_length (buffer : List Nat) (i : Nat)
    (h : declaredEnd buffer i < buffer.length) :
    (candPayload buffer i).length = buffer.getD (i + 3) 0 := by
  have hde : declaredEnd buffer i = i + 4 + buffer.getD (i + 3) 0 := rfl
  unfold candPayload
  rw [List.length_take, List.length_drop]
  omega

/-- The consumed bytes of an accepted candidate are exactly its re-encoding:
    the slice of the buffer from offset i to the checksum byte equals the
    cons list header, cmd, type_id, length, payload, checksum. -/
theorem slice_at_candidate (buffer : List Nat) (i : Nat)
    (hend : declaredEnd buffer i < buffer.length) :
    (buffer.take (i + 5 + buffer.getD (i + 3) 0)).drop i =
      buffer.getD i 0 :: buffer.getD (i + 1) 0 :: buffer.getD (i + 2) 0 ::
        buffer.getD (i + 3) 0 ::
        (candPayload buffer i ++ [buffer.getD (declaredEnd buffer i) 0]) := by
  have hde : declaredEnd buffer i = i + 4 + buffer.getD (i + 3) 0 := rfl
  have e1 : i + 5 + buffer.getD (i + 3) 0 = i + (5 + buffer.getD (i + 3) 0) := by omega
  rw [e1, ← List.take_drop]
  have hlt : 4 + buffer.getD (i + 3) 0 < (buffer.drop i).length := by
    rw [List.length_drop]
    omega
  have e2 : 5 + buffer.getD (i + 3) 0 = (4 + buffer.getD (i + 3) 0) + 1 := by omega
  rw [e2, take_succ_getD (buffer.drop i) (4 + buffer.getD (i + 3) 0) hlt]
  rw [List.take_add]
  have h4 : 4 ≤ (buffer.drop i).length := by
    rw [List.length_drop]
    omega
  rw [take_four (buffer.drop i) h4]
  rw [getD_drop, getD_drop, getD_drop, getD_drop, getD_drop]
  rw [List.drop_drop]
  have e3 : i + (4 + buffer.getD (i + 3) 0) = declaredEnd buffer i := by
    rw [hde]
    omega
  rw [e3]
  have e4 : i + 0 = i := by omega
  rw [e4]
  rfl

/-- C8, amended: every frame try_extract_frame returns has one of the two
    header values, a checksum byte in the buffer equal to
    checksum(type_id, payload), a consumed count with 5 <= consumed <= buffer
    length (5 is reachable: an empty payload frame at offset 0 followed by at
    least one byte consumes 5), and the last 5 + payload-length consumed
    bytes equal the re-encoding of the frame. -/
theorem try_extract_frame_sound (buffer : List Nat) (f : Frame) (consumed : Nat)
    (h : try_extract_frame buffer = some (f, consumed)) :
    (f.header = HEADER_INPUT ∨ f.header = HEADER_OUTPUT) ∧
    buffer.getD (consumed - 1) 0 = checksum f.type_id f.payload ∧
    5 ≤ consumed ∧ consumed ≤ buffer.length ∧
    (buffer.take consumed).drop (consumed - (5 + f.payload.length)) =
      encode_frame f.header f.cmd f.type_id f.payload := by
  unfold try_extract_frame at h
  by_cases h6 : buffer.length < 6
  · rw [if_pos h6] at h
    cases h
  · rw [if_neg h6] at h
    obtain ⟨i, hi0, hir, hvh, hend, hck, hf, hc⟩ :=
      scanLoop_sound buffer (buffer.length - 5) 0 f consumed h
    have hde : declaredEnd buffer i = i + 4 + buffer.getD (i + 3) 0 := rfl
    have hvh' : buffer.getD i 0 = HEADER_INPUT ∨ buffer.getD i 0 = HEADER_OUTPUT := hvh
    have hck' : checksum (buffer.getD (i + 2) 0) (candPayload buffer i) =
        buffer.getD (declaredEnd buffer i) 0 := hck
    have hplen : (candPayload buffer i).length = buffer.getD (i + 3) 0 :=
      candPayload_length buffer i hend
    subst hf
    subst hc
    refine ⟨hvh', ?_, by omega, by omega, ?_⟩
    · have e : i + 5 + buffer.getD (i + 3) 0 - 1 = declaredEnd buffer i := by
        rw [hde]
        omega
      rw [e]
      exact hck'.symm
    · have e : i + 5 + buffer.getD (i + 3) 0 -
          (5 + (Frame.mk (buffer.getD i 0) (buffer.getD (i + 1) 0) (buffer.getD (i + 2) 0)
            (candPayload buffer i)).payload.length) = i := by
        simp only [hplen]
        omega
      rw [e]
      rw [slice_at_candidate buffer i hend]
      show _ = encode_frame (buffer.getD i 0) (buffer.getD (i + 1) 0) (buffer.getD (i + 2) 0)
        (candPayload buffer i)
      unfold encode_frame
      rw [hplen, ← hck']
      rfl

/-- Counterexample to C8 as stated: an empty payload frame at offset 0 of a
    6 byte buffer is returned with consumed = 5, violating 6 <= consumed. -/
theorem try_extract_consumed_five :
    try_extract_frame [0xF0, 0xA1, 0, 0, 0, 0] = some (⟨0xF0, 0xA1, 0, []⟩, 5) := by decide

/-- Witness for try_extract_frame_sound at the buffer encode_frame 0xF0 0xA1
    5 [7] = [0xF0, 0xA1, 5, 1, 7, 13]. -/
theorem try_extract_frame_sound_witness :
    (((0xF0 : Nat) = HEADER_INPUT ∨ (0xF0 : Nat) = HEADER_OUTPUT) ∧
      ([0xF0, 0xA1, 5, 1, 7, 13] : List Nat).getD (6 - 1) 0 = checksum 5 [7] ∧
      5 ≤ 6 ∧ 6 ≤ ([0xF0, 0xA1, 5, 1, 7, 13] : List Nat).length ∧
      (([0xF0, 0xA1, 5, 1, 7, 13] : List Nat).take 6).drop (6 - (5 + 1)) =
        encode_frame 0xF0 0xA1 5 [7]) :=
  try_extract_frame_sound [0xF0, 0xA1, 5, 1, 7, 13] ⟨0xF0, 0xA1, 5, [7]⟩ 6 (by decide)

/-
Width requirements of the scalar registers (C9).
-/

/-- C9: each scalar register decodes exactly when the payload covers its full
    width and raises on shorter payloads: the single-float registers need 4
    bytes, the three-float bundle register 195 needs 12, and the byte and
    enum registers 219, 220, 221 need 1; the ALL truncation fallback does not
    apply to them. -/
theorem parse_payload_scalar_widths (payload : List Nat) :
    ((parse_payload 192 payload).isSome = true ↔ 4 ≤ payload.length) ∧
    ((parse_payload 196 payload).isSome = true ↔ 4 ≤ payload.length) ∧
    ((parse_payload 217 payload).isSome = true ↔ 4 ≤ payload.length) ∧
    ((parse_payload 218 payload).isSome = true ↔ 4 ≤ payload.length) ∧
    ((parse_payload 226 payload).isSome = true ↔ 4 ≤ payload.length) ∧
    ((parse_payload 227 payload).isSome = true ↔ 4 ≤ payload.length) ∧
    ((parse_payload 195 payload).isSome = true ↔ 12 ≤ payload.length) ∧
    ((parse_payload 219 payload).isSome = true ↔ 1 ≤ payload.length) ∧
    ((parse_payload 220 payload).isSome = true ↔ 1 ≤ payload.length) ∧
    ((parse_payload 221 payload).isSome = true ↔ 1 ≤ payload.length) := by
  refine ⟨?_, ?_, ?_, ?_, ?_, ?_, ?_, ?_, ?_, ?_⟩
  · rw [show parse_payload 192 payload =
      (f32 payload 0).bind fun v => some [("inputVoltage", Value.f32bits v)] from rfl]
    unfold f32
    split_ifs <;> simp_all
  · rw [show parse_payload 196 payload =
      (f32 payload 0).bind fun v => some [("temperature", Value.f32bits v)] from rfl]
    unfold f32
    split_ifs <;> simp_all
  · rw [show parse_payload 217 payload =
      (f32 payload 0).bind fun v => some [("outputCapacity", Value.f32bits v)] from rfl]
    unfold f32
    split_ifs <;> simp_all
  · rw [show parse_payload 218 payload =
      (f32 payload 0).bind fun v => some [("outputEnergy", Value.f32bits v)] from rfl]
    unfold f32
    split_ifs <;> simp_all
  · rw [show parse_payload 226 payload =
      (f32 payload 0).bind fun v => some [("upperLimitVoltage", Value.f32bits v)] from rfl]
    unfold f32
    split_ifs <;> simp_all
  · rw [show parse_payload 227 payload =
      (f32 payload 0).bind fun v => some [("upperLimitCurrent", Value.f32bits v)] from rfl]
    unfold f32
    split_ifs <;> simp_all
  · rw [show parse_payload 195 payload =
      (f32 payload 0).bind fun v => (f32 payload 4).bind fun c => (f32 payload 8).bind fun p =>
        some [("outputVoltage", Value.f32bits v), ("outputCurrent", Value.f32bits c),
          ("outputPower", Value.f32bits p)] from rfl]
    unfold f32
    split_ifs <;> simp_all <;> omega
  · rw [show parse_payload 219 payload =
      (byteAt payload 0).bind fun b => some [("outputClosed", Value.bool (b == 1))] from rfl]
    unfold byteAt
    split_ifs <;> simp_all <;> omega
  · rw [show parse_payload 220 payload =
      (byteAt payload 0).bind fun idx =>
        some [("protectionState", Value.str (protectionLabel idx))] from rfl]
    unfold byteAt
    split_ifs <;> simp_all <;> omega
  · rw [show parse_payload 221 payload =
      (byteAt payload 0).bind fun m =>
        some [("mode", Value.str (if m == 0 then "CC" else "CV"))] from rfl]
    unfold byteAt
    split_ifs <;> simp_all <;> omega

/-
No mutation of the receive buffer by the scanner (C10).
-/

theorem bufLen_fst (buf : List Nat) : (bufLen buf).1 = buf.length := rfl

theorem bufLen_snd (buf : List Nat) : (bufLen buf).2 = buf := rfl

theorem bufGet_fst (buf : List Nat) (i : Nat) : (bufGet buf i).1 = buf.getD i 0 := rfl

theorem bufGet_snd (buf : List Nat) (i : Nat) : (bufGet buf i).2 = buf := rfl

theorem bufSlice_fst (buf : List Nat) (a b : Nat) :
    (bufSlice buf a b).1 = (buf.drop a).take (b - a) := rfl

theorem bufSlice_snd (buf : List Nat) (a b : Nat) : (bufSlice buf a b).2 = buf := rfl

theorem scanLoopImp_preserves (n : Nat) :
    ∀ (idxs buf : List Nat), (scanLoopImp n idxs buf).2 = buf := by
  intro idxs
  induction idxs with
  | nil => intro buf; rfl
  | cons i rest ih =>
    intro buf
    simp only [scanLoopImp, bufGet_fst, bufGet_snd, bufSlice_fst, bufSlice_snd]
    split_ifs <;> first | rfl | exact ih buf

theorem scanLoopImp_fst (buffer : List Nat) :
    ∀ (fuel i : Nat), i + fuel ≤ buffer.length - 5 →
      (scanLoopImp buffer.length (List.range' i fuel) buffer).1 = scanLoop buffer fuel i := by
  intro fuel
  induction fuel with
  | zero => intro i _; rfl
  | succ fuel ih =>
    intro i h
    rw [List.range'_succ]
    simp only [scanLoopImp, scanLoop, bufGet_fst, bufGet_snd, bufSlice_fst, bufSlice_snd]
    rw [if_pos (show i < buffer.length - 5 by omega)]
    by_cases hv : buffer.getD i 0 = HEADER_INPUT ∨ buffer.getD i 0 = HEADER_OUTPUT
    · rw [if_pos hv, if_pos hv]
      by_cases he : buffer.length ≤ i + 4 + buffer.getD (i + 3) 0
      · rw [if_pos he, if_pos he]
      · rw [if_neg he, if_neg he]
        have es : i + 4 + buffer.getD (i + 3) 0 - (i + 4) = buffer.getD (i + 3) 0 := by omega
        rw [es]
        by_cases hc : checksum (buffer.getD (i + 2) 0)
            ((buffer.drop (i + 4)).take (buffer.getD (i + 3) 0)) =
            buffer.getD (i + 4 + buffer.getD (i + 3) 0) 0
        · rw [if_pos hc, if_pos hc]
        · rw [if_neg hc, if_neg hc]
          exact ih (i + 1) (by omega)
    · rw [if_neg hv, if_neg hv]
      exact ih (i + 1) (by omega)

/-- C10: try_extract_frame never mutates the buffer passed to it: in the
    state-threaded embedding of its body the buffer left behind equals the
    buffer passed in, whether or not a frame is found, and the result is the
    one the pure function computes; only the caller (reader_consume, the
    del rx_buf[:consumed] in device.py) removes consumed bytes. -/
theorem try_extract_frame_no_mutation (buf : List Nat) :
    (try_extract_frame_imp buf).2 = buf ∧
    (try_extract_frame_imp buf).1 = try_extract_frame buf := by
  constructor
  · simp only [try_extract_frame_imp, bufLen_fst, bufLen_snd]
    split_ifs
    · rfl
    · exact scanLoopImp_preserves buf.length (List.range (buf.length - 5)) buf
  · simp only [try_extract_frame_imp, try_extract_frame, bufLen_fst, bufLen_snd]
    split_ifs
    · rfl
    · rw [List.range_eq_range']
      exact scanLoopImp_fst buf (buf.length - 5) 0 (by omega)

end DPS150
